import Mathlib

/-!
Shallow embedding of the core of `disk-analyzer` (src/main.rs):
the scanning/caching engine of `DiskAnalyzer`, with the filesystem
modelled as an explicit tree value and `Instant` as a `Nat` clock.
-/

set_option maxHeartbeats 1000000

namespace DiskAnalyzerModel

/-- A path, modelled by Rust `PathBuf` components: an absolute-path flag
plus the list of normal components. -/
structure FsPath where
  absolute : Bool
  components : List String
deriving DecidableEq, Repr

/-- Rust `Path::parent`: drop the last component; `None` when there is no
component left to drop. -/
def FsPath.parent : FsPath → Option FsPath
  | ⟨_, []⟩ => none
  | ⟨a, cs⟩ => some ⟨a, cs.dropLast⟩

/-- Rust `Path::starts_with`, component-wise. -/
def FsPath.startsWith (p base : FsPath) : Bool :=
  p.absolute = base.absolute && base.components.isPrefixOf p.components

/-- Rust `Path::join` with a single file name. -/
def FsPath.join (p : FsPath) (name : String) : FsPath :=
  ⟨p.absolute, p.components ++ [name]⟩

/-- The filesystem seen from one node.  `file len` is a regular file of
`len` bytes; `dirErr` is a directory whose `fs::read_dir` fails; `dirOk`
is a readable directory listing its children: each child has a name and
either its node (`some`) or `none` when `entry.metadata()` fails. -/
inductive FsNode where
  | file (len : Nat) : FsNode
  | dirErr : FsNode
  | dirOk (entries : List (String × Option FsNode)) : FsNode

mutual

/-- `DiskAnalyzer::calculate_dir_size` (main.rs:70-90): sum the sizes of
direct children; an unlistable node contributes 0. -/
def calculate_dir_size : FsNode → Nat
  | .file _ => 0
  | .dirErr => 0
  | .dirOk entries => sumEntrySizes entries

/-- The summation over the listing, one child at a time. -/
def sumEntrySizes : List (String × Option FsNode) → Nat
  | [] => 0
  | e :: rest => entrySizeContribution e.2 + sumEntrySizes rest

/-- The contribution of one child: metadata failure gives 0, a file
gives its length, anything else recurses. -/
def entrySizeContribution : Option FsNode → Nat
  | none => 0
  | some (.file len) => len
  | some n => calculate_dir_size n

end

/-- `const MIN_SIZE_FILTER: u64 = 1024 * 100` (main.rs:10). -/
def MIN_SIZE_FILTER : Nat := 1024 * 100

/-- `struct FileInfo` (main.rs:12-18). -/
structure FileInfo where
  path : FsPath
  size : Nat
  is_dir : Bool
  name : String
deriving DecidableEq, Repr

/-- `struct CacheEntry` (main.rs:20-25); `Instant` modelled as a `Nat`
clock reading. -/
structure CacheEntry where
  file_list : List FileInfo
  total_size : Nat
  timestamp : Nat
deriving DecidableEq, Repr

/-- The cache `HashMap<PathBuf, CacheEntry>`, as an association list with
at most one binding per key. -/
abbrev Cache := List (FsPath × CacheEntry)

/-- `HashMap::get`. -/
def cacheGet : Cache → FsPath → Option CacheEntry
  | [], _ => none
  | (k, v) :: rest, p => if k = p then some v else cacheGet rest p

/-- `HashMap::remove` (only the map effect is modelled). -/
def cacheRemove (c : Cache) (p : FsPath) : Cache :=
  c.filter (fun kv => decide (kv.1 ≠ p))

/-- `HashMap::insert`: replace any existing binding for the key. -/
def cacheInsert (c : Cache) (p : FsPath) (e : CacheEntry) : Cache :=
  (p, e) :: cacheRemove c p

/-- `struct DiskAnalyzer` (main.rs:27-44), restricted to the model state;
`Instant` fields are `Nat` clock readings. -/
structure DiskAnalyzer where
  root_path : Option FsPath
  current_path : Option FsPath
  file_list : List FileInfo
  filtered_list : List FileInfo
  scanning : Bool
  search_query : String
  delete_confirmation : Option FileInfo
  total_size : Nat
  show_details : Bool
  min_size_filter : Nat
  show_all : Bool
  cache : Cache
  auto_refresh : Bool
  last_refresh : Nat
  sort_by_size : Bool
  show_hidden : Bool

/-- `impl Default for DiskAnalyzer` (main.rs:46-67); `now` stands for
`Instant::now()`. -/
def DiskAnalyzer.defaultState (now : Nat) : DiskAnalyzer where
  root_path := none
  current_path := none
  file_list := []
  filtered_list := []
  scanning := false
  search_query := ""
  delete_confirmation := none
  total_size := 0
  show_details := false
  min_size_filter := MIN_SIZE_FILTER
  show_all := false
  cache := []
  auto_refresh := false
  last_refresh := now
  sort_by_size := true
  show_hidden := false

/-- The comparator of `sort_files` when `sort_by_size` (main.rs:164-170):
directories first, then descending size. -/
def cmpBySize (a b : FileInfo) : Ordering :=
  if a.is_dir = b.is_dir then compare b.size a.size else compare b.is_dir a.is_dir

/-- Byte/scalar-value lexicographic comparison of strings, as Rust
`str::cmp` on the (lower-cased) names. -/
def charListCmp : List Char → List Char → Ordering
  | [], [] => .eq
  | [], _ :: _ => .lt
  | _ :: _, [] => .gt
  | a :: as, b :: bs =>
    match compare a.toNat b.toNat with
    | .eq => charListCmp as bs
    | o => o

/-- The comparator of `sort_files` when not `sort_by_size`
(main.rs:172-178): directories first, then ascending lower-cased name. -/
def cmpByName (a b : FileInfo) : Ordering :=
  if a.is_dir = b.is_dir then charListCmp a.name.toLower.data b.name.toLower.data
  else compare b.is_dir a.is_dir

/-- The comparator `sort_files` passes to `Vec::sort_by`. -/
def sortCmp (sort_by_size : Bool) : FileInfo → FileInfo → Ordering :=
  if sort_by_size then cmpBySize else cmpByName

/-- `Vec::sort_by` with comparator `c` is a stable sort placing `a`
before `b` whenever `c a b ≠ Greater`; `List.mergeSort` with this
condition is exactly such a sort. -/
def sortByCmp (c : FileInfo → FileInfo → Ordering) (l : List FileInfo) : List FileInfo :=
  l.mergeSort (fun a b => (c a b).isLE)

/-- `DiskAnalyzer::sort_files` (main.rs:162-180). -/
def sort_files (s : DiskAnalyzer) : DiskAnalyzer :=
  { s with file_list := sortByCmp (sortCmp s.sort_by_size) s.file_list }

/-- Rust `str::contains`: substring containment. -/
def strContainsSub (s pat : String) : Bool :=
  decide (pat.data <:+: s.data)

/-- The body of `update_search` (main.rs:183-194): lower-case the query;
an empty query keeps the whole list, otherwise filter by case-insensitive
substring containment on the name. -/
def searchFilter (query : String) (l : List FileInfo) : List FileInfo :=
  let search_query := query.toLower
  if search_query.isEmpty then l
  else l.filter (fun item => strContainsSub item.name.toLower search_query)

/-- `DiskAnalyzer::update_search` (main.rs:182-195). -/
def update_search (s : DiskAnalyzer) : DiskAnalyzer :=
  { s with filtered_list := searchFilter s.search_query s.file_list }

/-- One loop iteration of the fresh-listing pass of
`scan_current_directory` (main.rs:114-142): `none` when the child is
skipped (metadata failure, hidden-name filter, or size filter), otherwise
the pushed `FileInfo`. -/
def scanEntry (current : FsPath) (show_hidden show_all : Bool) (min_size_filter : Nat) :
    String × Option FsNode → Option FileInfo
  | (_, none) => none
  | (name, some n) =>
    let size := match n with
      | .file len => len
      | _ => calculate_dir_size n
    if !show_hidden && name.startsWith "." then none
    else if !show_all && size < min_size_filter then none
    else some { path := current.join name, size := size,
                is_dir := (match n with | .file _ => false | _ => true), name := name }

/-- The `files` vector built by the fresh-listing pass. -/
def listingToFiles (current : FsPath) (show_hidden show_all : Bool) (min_size_filter : Nat)
    (entries : List (String × Option FsNode)) : List FileInfo :=
  entries.filterMap (scanEntry current show_hidden show_all min_size_filter)

/-- The tail of `scan_current_directory` after a cache miss
(main.rs:112-159): attempt the listing, build/sort/total/store on
success, then `update_search` and clear `scanning` either way. -/
def scanFresh (fs : FsPath → FsNode) (now : Nat) (current_path : FsPath)
    (s : DiskAnalyzer) : DiskAnalyzer :=
  let s1 :=
    match fs current_path with
    | .dirOk entries =>
      let files := listingToFiles current_path s.show_hidden s.show_all s.min_size_filter entries
      let s2 := sort_files { s with file_list := files }
      let total := (s2.file_list.map (fun f => f.size)).sum
      { s2 with total_size := total,
                cache := cacheInsert s2.cache current_path ⟨s2.file_list, total, now⟩ }
    | _ => s
  { update_search s1 with scanning := false }

/-- `DiskAnalyzer::scan_current_directory` (main.rs:92-160).  `fs` is the
filesystem, `now` the reading of `Instant::now()` during the call. -/
def scan_current_directory (fs : FsPath → FsNode) (now : Nat) (s : DiskAnalyzer) : DiskAnalyzer :=
  match s.current_path with
  | none => s
  | some current_path =>
    let s1 := { s with scanning := true, file_list := [] }
    match cacheGet s1.cache current_path with
    | some cache_entry =>
      if now - cache_entry.timestamp < 300 then
        { update_search (sort_files
            { s1 with file_list := cache_entry.file_list,
                      total_size := cache_entry.total_size }) with scanning := false }
      else scanFresh fs now current_path s1
    | none => scanFresh fs now current_path s1

/-- `DiskAnalyzer::navigate_to` (main.rs:197-200). -/
def navigate_to (fs : FsPath → FsNode) (now : Nat) (path : FsPath) (s : DiskAnalyzer) : DiskAnalyzer :=
  scan_current_directory fs now { s with current_path := some path }

/-- `DiskAnalyzer::go_up` (main.rs:202-210). -/
def go_up (fs : FsPath → FsNode) (now : Nat) (s : DiskAnalyzer) : DiskAnalyzer :=
  match s.current_path with
  | none => s
  | some current =>
    match current.parent with
    | none => s
    | some parent =>
      if (match s.root_path with
          | none => true
          | some root => parent.startsWith root) then
        navigate_to fs now parent s
      else s

/-- `DiskAnalyzer::delete_item` (main.rs:212-236).  `removeResult` is the
outcome of the one filesystem removal call the function makes
(`remove_dir_all` when `item.is_dir`, else `remove_file`): `none` for
`Ok`, `some e` for `Err(e)`.  Returns the new state and the `Result`. -/
def delete_item (removeResult : Option String) (item : FileInfo)
    (s : DiskAnalyzer) : DiskAnalyzer × Except String Unit :=
  match removeResult with
  | some e =>
    if item.is_dir then (s, .error ("Error deleting directory: " ++ e))
    else (s, .error ("Error deleting file: " ++ e))
  | none =>
    let s1 := match s.current_path with
      | some current_path => { s with cache := cacheRemove s.cache current_path }
      | none => s
    let s2 := update_search
      { s1 with file_list := s1.file_list.filter (fun f => decide (f.path ≠ item.path)) }
    ({ s2 with total_size := (s2.file_list.map (fun f => f.size)).sum }, .ok ())

/-! ### Basic lemmas about orderings and the comparators -/

theorem isLE_iff_ne_gt (o : Ordering) : o.isLE = true ↔ o ≠ .gt := by
  cases o <;> simp [Ordering.isLE]

theorem natCompare_isLE {x y : Nat} : (compare x y).isLE = true ↔ x ≤ y := by
  rcases h : compare x y with _ | _ | _
  · simpa [Ordering.isLE] using Nat.le_of_lt (Nat.compare_eq_lt.mp h)
  · simpa [Ordering.isLE] using Nat.le_of_eq (Nat.compare_eq_eq.mp h)
  · simpa [Ordering.isLE] using Nat.not_le.mpr (Nat.compare_eq_gt.mp h)

theorem boolCompare_ff : compare false false = Ordering.eq := by decide
theorem boolCompare_ft : compare false true = Ordering.lt := by decide
theorem boolCompare_tf : compare true false = Ordering.gt := by decide
theorem boolCompare_tt : compare true true = Ordering.eq := by decide

theorem charListCmp_swap : ∀ as bs : List Char, charListCmp bs as = (charListCmp as bs).swap
  | [], [] => rfl
  | [], _ :: _ => rfl
  | _ :: _, [] => rfl
  | a :: as, b :: bs => by
    simp only [charListCmp]
    rcases h : compare a.toNat b.toNat with _ | _ | _
    · rw [show compare b.toNat a.toNat = Ordering.gt from
        Nat.compare_eq_gt.mpr (Nat.compare_eq_lt.mp h)]
      rfl
    · rw [show compare b.toNat a.toNat = Ordering.eq from
        Nat.compare_eq_eq.mpr (Nat.compare_eq_eq.mp h).symm]
      exact charListCmp_swap as bs
    · rw [show compare b.toNat a.toNat = Ordering.lt from
        Nat.compare_eq_lt.mpr (Nat.compare_eq_gt.mp h)]
      rfl

theorem charListCmp_isLE_trans : ∀ as bs cs : List Char,
    (charListCmp as bs).isLE = true → (charListCmp bs cs).isLE = true →
    (charListCmp as cs).isLE = true
  | [], _, [], _, _ => rfl
  | [], _, _ :: _, _, _ => rfl
  | _ :: _, [], [], h1, _ => by simp [charListCmp, Ordering.isLE] at h1
  | _ :: _, [], _ :: _, h1, _ => by simp [charListCmp, Ordering.isLE] at h1
  | _ :: _, _ :: _, [], _, h2 => by simp [charListCmp, Ordering.isLE] at h2
  | a :: as, b :: bs, c :: cs, h1, h2 => by
    simp only [charListCmp] at h1 h2 ⊢
    rcases hab : compare a.toNat b.toNat with _ | _ | _ <;> rw [hab] at h1
    · rcases hbc : compare b.toNat c.toNat with _ | _ | _ <;> rw [hbc] at h2
      · rw [Nat.compare_eq_lt.mpr
          (Nat.lt_trans (Nat.compare_eq_lt.mp hab) (Nat.compare_eq_lt.mp hbc))]
        rfl
      · rw [Nat.compare_eq_lt.mpr ((Nat.compare_eq_eq.mp hbc) ▸ Nat.compare_eq_lt.mp hab)]
        rfl
      · simp [Ordering.isLE] at h2
    · rcases hbc : compare b.toNat c.toNat with _ | _ | _ <;> rw [hbc] at h2
      · rw [Nat.compare_eq_lt.mpr ((Nat.compare_eq_eq.mp hab) ▸ Nat.compare_eq_lt.mp hbc)]
        rfl
      · rw [Nat.compare_eq_eq.mpr ((Nat.compare_eq_eq.mp hab).trans (Nat.compare_eq_eq.mp hbc))]
        exact charListCmp_isLE_trans as bs cs h1 h2
      · simp [Ordering.isLE] at h2
    · simp [Ordering.isLE] at h1

theorem charListCmp_isLE_total (as bs : List Char) :
    (charListCmp as bs).isLE = true ∨ (charListCmp bs as).isLE = true := by
  rcases h : charListCmp as bs with _ | _ | _
  · left; rfl
  · left; rfl
  · right; rw [charListCmp_swap, h]; rfl

theorem isLE_lt : Ordering.lt.isLE = true := rfl
theorem isLE_eq : Ordering.eq.isLE = true := rfl
theorem isLE_gt : Ordering.gt.isLE = false := rfl

/-- The key order inside one directory tier: descending size when
sorting by size, ascending lower-cased name otherwise. -/
def tierKeyLe (sbs : Bool) (a b : FileInfo) : Prop :=
  if sbs then b.size ≤ a.size
  else (charListCmp a.name.toLower.data b.name.toLower.data).isLE = true

theorem sortCmp_isLE_iff (sbs : Bool) (a b : FileInfo) :
    (sortCmp sbs a b).isLE = true ↔
      (a.is_dir = true ∧ b.is_dir = false) ∨ (a.is_dir = b.is_dir ∧ tierKeyLe sbs a b) := by
  cases sbs <;> rcases ha : a.is_dir <;> rcases hb : b.is_dir <;>
    simp [sortCmp, cmpBySize, cmpByName, tierKeyLe, ha, hb, boolCompare_tf, boolCompare_ft,
      isLE_lt, isLE_gt, natCompare_isLE]

theorem tierKeyLe_trans {sbs : Bool} {a b c : FileInfo} :
    tierKeyLe sbs a b → tierKeyLe sbs b c → tierKeyLe sbs a c := by
  cases sbs <;> simp only [tierKeyLe, if_true, if_false, Bool.false_eq_true, reduceIte]
  · exact charListCmp_isLE_trans _ _ _
  · exact fun h1 h2 => Nat.le_trans h2 h1

theorem tierKeyLe_total (sbs : Bool) (a b : FileInfo) :
    tierKeyLe sbs a b ∨ tierKeyLe sbs b a := by
  cases sbs <;> simp only [tierKeyLe, if_true, if_false, Bool.false_eq_true, reduceIte]
  · exact charListCmp_isLE_total _ _
  · exact Nat.le_total _ _

theorem sortCmp_isLE_trans (sbs : Bool) : ∀ a b c : FileInfo,
    (sortCmp sbs a b).isLE = true → (sortCmp sbs b c).isLE = true →
    (sortCmp sbs a c).isLE = true := by
  intro a b c h1 h2
  rw [sortCmp_isLE_iff] at h1 h2 ⊢
  rcases h1 with ⟨ha, hb⟩ | ⟨hab, k1⟩
  · rcases h2 with ⟨hb', _⟩ | ⟨hbc, k2⟩
    · rw [hb] at hb'; exact absurd hb' (by simp)
    · exact Or.inl ⟨ha, hbc ▸ hb⟩
  · rcases h2 with ⟨hb', hc⟩ | ⟨hbc, k2⟩
    · exact Or.inl ⟨hab ▸ hb', hc⟩
    · exact Or.inr ⟨hab.trans hbc, tierKeyLe_trans k1 k2⟩

theorem sortCmp_isLE_total (sbs : Bool) : ∀ a b : FileInfo,
    ((sortCmp sbs a b).isLE || (sortCmp sbs b a).isLE) = true := by
  intro a b
  rw [Bool.or_eq_true, sortCmp_isLE_iff, sortCmp_isLE_iff]
  rcases ha : a.is_dir <;> rcases hb : b.is_dir
  · rcases tierKeyLe_total sbs a b with k | k
    · exact Or.inl (Or.inr ⟨rfl, k⟩)
    · exact Or.inr (Or.inr ⟨rfl, k⟩)
  · exact Or.inr (Or.inl ⟨rfl, rfl⟩)
  · exact Or.inl (Or.inl ⟨rfl, rfl⟩)
  · rcases tierKeyLe_total sbs a b with k | k
    · exact Or.inl (Or.inr ⟨rfl, k⟩)
    · exact Or.inr (Or.inr ⟨rfl, k⟩)

/-! ### Lemmas about the modelled sort -/

theorem sortByCmp_perm (c : FileInfo → FileInfo → Ordering) (l : List FileInfo) :
    List.Perm (sortByCmp c l) l :=
  List.mergeSort_perm l _

theorem sortByCmp_sorted (sbs : Bool) (l : List FileInfo) :
    (sortByCmp (sortCmp sbs) l).Pairwise (fun a b => (sortCmp sbs a b).isLE = true) := by
  have h := List.sorted_mergeSort (sortCmp_isLE_trans sbs) (sortCmp_isLE_total sbs) l
  exact h

theorem sortByCmp_of_sorted {sbs : Bool} {l : List FileInfo}
    (h : l.Pairwise (fun a b => (sortCmp sbs a b).isLE = true)) :
    sortByCmp (sortCmp sbs) l = l :=
  List.mergeSort_of_sorted h

theorem sortByCmp_stable {sbs : Bool} {l : List FileInfo} {a b : FileInfo}
    (hab : (sortCmp sbs a b).isLE = true) (h : List.Sublist [a, b] l) :
    List.Sublist [a, b] (sortByCmp (sortCmp sbs) l) :=
  List.pair_sublist_mergeSort (sortCmp_isLE_trans sbs) (sortCmp_isLE_total sbs) hab h

theorem mergeSort_pair {α : Type} (le : α → α → Bool) (a b : α) :
    [a, b].mergeSort le = if le a b then [a, b] else [b, a] := by
  rw [List.mergeSort]
  simp [List.splitInTwo, List.splitAt, List.splitAt.go, List.merge]

/-! ### Lemmas about the cache model -/

theorem cacheGet_remove_self (c : Cache) (p : FsPath) :
    cacheGet (cacheRemove c p) p = none := by
  induction c with
  | nil => rfl
  | cons kv rest ih =>
    by_cases h : kv.1 = p
    · simpa [cacheRemove, List.filter, h] using ih
    · simpa [cacheRemove, List.filter, h, cacheGet] using ih

theorem cacheGet_insert_self (c : Cache) (p : FsPath) (e : CacheEntry) :
    cacheGet (cacheInsert c p e) p = some e := by
  simp [cacheInsert, cacheGet]

/-! ### Lemmas about paths -/

theorem parent_not_startsWith_self (root par : FsPath)
    (h : root.parent = some par) : par.startsWith root = false := by
  rcases root with ⟨ab, cs⟩
  rcases cs with _ | ⟨c, cs'⟩
  · simp [FsPath.parent] at h
  · simp only [FsPath.parent, Option.some.injEq] at h
    subst h
    simp only [FsPath.startsWith, Bool.and_eq_false_imp]
    intro _
    by_contra hpre
    rw [Bool.not_eq_false, List.isPrefixOf_iff_prefix] at hpre
    have hlen := hpre.length_le
    rw [List.length_dropLast, List.length_cons] at hlen
    omega

/-! ### Structural lemmas about the scanner -/

theorem update_search_file_list (s : DiskAnalyzer) :
    (update_search s).file_list = s.file_list := rfl

theorem searchFilter_nil (query : String) : searchFilter query [] = [] := by
  unfold searchFilter
  by_cases hq : query.toLower.isEmpty <;> simp [hq]

theorem scanFresh_current_path (fs : FsPath → FsNode) (now : Nat) (p : FsPath)
    (s : DiskAnalyzer) : (scanFresh fs now p s).current_path = s.current_path := by
  unfold scanFresh
  rcases fs p with _ | _ | es <;> simp [update_search, sort_files]

/-- The result of a cache-hit scan, in closed form. -/
theorem scan_hit_eq (fs : FsPath → FsNode) (now : Nat) (s : DiskAnalyzer)
    (p : FsPath) (ce : CacheEntry)
    (hp : s.current_path = some p) (hce : cacheGet s.cache p = some ce)
    (ht : now - ce.timestamp < 300) :
    scan_current_directory fs now s =
      { s with scanning := false,
               file_list := sortByCmp (sortCmp s.sort_by_size) ce.file_list,
               filtered_list := searchFilter s.search_query
                 (sortByCmp (sortCmp s.sort_by_size) ce.file_list),
               total_size := ce.total_size } := by
  unfold scan_current_directory
  rw [hp]
  dsimp only
  rw [hce]
  dsimp only
  rw [if_pos ht]
  simp [update_search, sort_files]

/-- The result of a scan that misses the cache (either no entry, or a
stale one) on a listable directory, in closed form. -/
theorem scan_fresh_eq (fs : FsPath → FsNode) (now : Nat) (s : DiskAnalyzer)
    (p : FsPath) (entries : List (String × Option FsNode))
    (hp : s.current_path = some p)
    (hmiss : ∀ ce, cacheGet s.cache p = some ce → 300 ≤ now - ce.timestamp)
    (hfs : fs p = .dirOk entries) :
    scan_current_directory fs now s =
      (let sorted := sortByCmp (sortCmp s.sort_by_size)
         (listingToFiles p s.show_hidden s.show_all s.min_size_filter entries)
       let total := (sorted.map (fun f => f.size)).sum
       { s with scanning := false,
                file_list := sorted,
                filtered_list := searchFilter s.search_query sorted,
                total_size := total,
                cache := cacheInsert s.cache p ⟨sorted, total, now⟩ }) := by
  unfold scan_current_directory
  rw [hp]
  dsimp only
  have hfresh : scanFresh fs now p
      { s with current_path := some p, scanning := true, file_list := [] } =
      (let sorted := sortByCmp (sortCmp s.sort_by_size)
         (listingToFiles p s.show_hidden s.show_all s.min_size_filter entries)
       let total := (sorted.map (fun f => f.size)).sum
       { s with current_path := some p, scanning := false,
                file_list := sorted,
                filtered_list := searchFilter s.search_query sorted,
                total_size := total,
                cache := cacheInsert s.cache p ⟨sorted, total, now⟩ }) := by
    unfold scanFresh
    rw [hfs]
    simp [update_search, sort_files]
  rcases hce : cacheGet s.cache p with _ | ce
  · exact hfresh
  · dsimp only
    rw [if_neg (by simpa using hmiss ce hce)]
    exact hfresh

/-- The result of a scan that misses the cache on an unlistable path, in
closed form: the cleared list stays, everything else is kept. -/
theorem scan_unlistable_eq (fs : FsPath → FsNode) (now : Nat) (s : DiskAnalyzer)
    (p : FsPath)
    (hp : s.current_path = some p)
    (hmiss : ∀ ce, cacheGet s.cache p = some ce → 300 ≤ now - ce.timestamp)
    (hfs : ∀ entries, fs p ≠ .dirOk entries) :
    scan_current_directory fs now s =
      { s with scanning := false, file_list := [], filtered_list := [] } := by
  unfold scan_current_directory
  rw [hp]
  dsimp only
  have hfresh : scanFresh fs now p
      { s with current_path := some p, scanning := true, file_list := [] } =
      { s with current_path := some p, scanning := false,
               file_list := [], filtered_list := [] } := by
    unfold scanFresh
    rcases hn : fs p with len | _ | es
    · simp [update_search, searchFilter_nil]
    · simp [update_search, searchFilter_nil]
    · exact absurd hn (hfs es)
  rcases hce : cacheGet s.cache p with _ | ce
  · exact hfresh
  · dsimp only
    rw [if_neg (by simpa using hmiss ce hce)]
    exact hfresh

theorem scan_current_path (fs : FsPath → FsNode) (now : Nat) (s : DiskAnalyzer) :
    (scan_current_directory fs now s).current_path = s.current_path := by
  unfold scan_current_directory
  split
  · rfl
  · dsimp only
    split
    · split
      · simp [update_search, sort_files]
      · rw [scanFresh_current_path]
    · rw [scanFresh_current_path]

theorem sumEntrySizes_eq_sum (entries : List (String × Option FsNode)) :
    sumEntrySizes entries =
      (entries.map (fun e =>
        match e.2 with
        | none => 0
        | some (.file len) => len
        | some n => calculate_dir_size n)).sum := by
  induction entries with
  | nil => rfl
  | cons e rest ih =>
    rw [List.map_cons, List.sum_cons, sumEntrySizes, ih]
    congr 1
    rcases e with ⟨name, _ | n⟩
    · rfl
    · rcases n <;> rfl

/-- C3: the aggregate size of a listable directory is the sum, over its
direct children, of the byte length for a file, the recursive aggregate
for a directory, and 0 for a child whose metadata cannot be read; an
unlistable directory aggregates to 0.  `calculate_dir_size` is a total
function, so no error is ever propagated. -/
theorem C3_aggregate_size :
    (∀ entries : List (String × Option FsNode),
      calculate_dir_size (.dirOk entries) =
        (entries.map (fun e =>
          match e.2 with
          | none => 0
          | some (.file len) => len
          | some n => calculate_dir_size n)).sum)
    ∧ calculate_dir_size .dirErr = 0 :=
  ⟨fun entries => by rw [calculate_dir_size, sumEntrySizes_eq_sum], rfl⟩

theorem toLower_empty : ("" : String).toLower = "" := by
  rw [String.toLower, String.map_eq]
  rfl

theorem searchFilter_empty_query (l : List FileInfo) : searchFilter "" l = l := by
  unfold searchFilter
  rw [toLower_empty]
  simp [String.isEmpty_iff]

theorem searchFilter_eq_filter (query : String) (l : List FileInfo) :
    searchFilter query l =
      l.filter (fun item => strContainsSub item.name.toLower query.toLower) := by
  unfold searchFilter
  by_cases hq : query.toLower.isEmpty
  · have h0 : query.toLower = "" := (String.isEmpty_iff _).mp hq
    simp only [hq, if_true]
    symm
    apply List.filter_eq_self.mpr
    intro a _
    simp only [strContainsSub, h0, decide_eq_true_eq]
    exact List.nil_infix
  · simp [hq]

/-- C9: the search result is exactly the order-preserving subsequence of
the entry list whose lower-cased names contain the lower-cased query as a
substring, and an empty query returns the full list unchanged. -/
theorem C9_search (s : DiskAnalyzer) :
    ((update_search s).file_list = s.file_list)
    ∧ ((update_search s).filtered_list =
        s.file_list.filter (fun item => strContainsSub item.name.toLower s.search_query.toLower))
    ∧ List.Sublist (update_search s).filtered_list s.file_list
    ∧ (∀ f, f ∈ (update_search s).filtered_list ↔
        f ∈ s.file_list ∧ strContainsSub f.name.toLower s.search_query.toLower = true)
    ∧ (s.search_query = "" → (update_search s).filtered_list = s.file_list) := by
  have hfl : (update_search s).filtered_list =
      s.file_list.filter (fun item => strContainsSub item.name.toLower s.search_query.toLower) := by
    rw [update_search, searchFilter_eq_filter]
  refine ⟨rfl, hfl, ?_, ?_, ?_⟩
  · rw [hfl]; exact List.filter_sublist _
  · intro f; rw [hfl, List.mem_filter]
  · intro hq
    rw [update_search, hq]
    exact searchFilter_empty_query s.file_list

/-- C4: with a root configured, `go_up` changes the current path only
when the parent of the current path exists and starts with the root
(i.e. is the root or one of its descendants), in which case the current
path becomes that parent; when the current path is the root itself the
call leaves the whole state unchanged. -/
theorem C4_go_up_boundary (fs : FsPath → FsNode) (now : Nat) (s : DiskAnalyzer)
    (root cur : FsPath)
    (hroot : s.root_path = some root) (hcur : s.current_path = some cur) :
    (cur.parent = none → go_up fs now s = s)
    ∧ (∀ par, cur.parent = some par → par.startsWith root = false → go_up fs now s = s)
    ∧ (∀ par, cur.parent = some par → par.startsWith root = true →
        (go_up fs now s).current_path = some par)
    ∧ (cur = root → go_up fs now s = s) := by
  have hnone : cur.parent = none → go_up fs now s = s := by
    intro hpar
    simp [go_up, hcur, hpar]
  have hout : ∀ par, cur.parent = some par → par.startsWith root = false →
      go_up fs now s = s := by
    intro par hpar hsw
    simp [go_up, hcur, hpar, hroot, hsw]
  refine ⟨hnone, hout, ?_, ?_⟩
  · intro par hpar hsw
    have hgo : go_up fs now s = navigate_to fs now par s := by
      simp [go_up, hcur, hpar, hroot, hsw]
    rw [hgo, navigate_to, scan_current_path]
  · intro hcr
    subst hcr
    rcases hpar : cur.parent with _ | par
    · exact hnone hpar
    · exact hout par hpar (parent_not_startsWith_self cur par hpar)

/-- C10: without a configured root, `go_up` performs no boundary check:
whenever the current path has a parent it unconditionally navigates
there. -/
theorem C10_go_up_no_root (fs : FsPath → FsNode) (now : Nat) (s : DiskAnalyzer)
    (cur par : FsPath)
    (hroot : s.root_path = none) (hcur : s.current_path = some cur)
    (hpar : cur.parent = some par) :
    go_up fs now s = navigate_to fs now par s
    ∧ (go_up fs now s).current_path = some par := by
  have h1 : go_up fs now s = navigate_to fs now par s := by
    simp [go_up, hcur, hpar, hroot]
  refine ⟨h1, ?_⟩
  rw [h1, navigate_to, scan_current_path]

/-- C6: when the filesystem removal fails, `delete_item` returns a
descriptive error naming the failed operation kind (directory removal
errors and file removal errors produce distinct messages) and leaves the
whole analyzer state unchanged. -/
theorem C6_delete_failure (e : String) (item : FileInfo) (s : DiskAnalyzer) :
    ((delete_item (some e) item s).1 = s)
    ∧ (item.is_dir = true →
        (delete_item (some e) item s).2 = .error ("Error deleting directory: " ++ e))
    ∧ (item.is_dir = false →
        (delete_item (some e) item s).2 = .error ("Error deleting file: " ++ e))
    ∧ ("Error deleting directory: " ++ e ≠ "Error deleting file: " ++ e) := by
  refine ⟨?_, ?_, ?_, ?_⟩
  · unfold delete_item
    by_cases h : item.is_dir <;> simp [h]
  · intro h; simp [delete_item, h]
  · intro h; simp [delete_item, h]
  · intro h
    have hlen := congrArg String.length h
    rw [String.length_append, String.length_append,
      show ("Error deleting directory: ").length = 26 from rfl,
      show ("Error deleting file: ").length = 21 from rfl] at hlen
    omega

/-- C5: when the filesystem removal succeeds, `delete_item` reports
success, drops the deleted entry (by path) from the in-memory list, keeps
the other entries in order, removes the cache binding of the current
directory (so its next lookup misses and the next scan takes the fresh
path), and recomputes the total as the sum of the remaining sizes — all
derived from the in-memory list, with no re-scan. -/
theorem C5_delete_success (item : FileInfo) (s : DiskAnalyzer) (cp : FsPath)
    (hcp : s.current_path = some cp) :
    ((delete_item none item s).2 = .ok ())
    ∧ ((delete_item none item s).1.file_list =
        s.file_list.filter (fun f => decide (f.path ≠ item.path)))
    ∧ (item ∉ (delete_item none item s).1.file_list)
    ∧ (∀ f ∈ (delete_item none item s).1.file_list, f.path ≠ item.path)
    ∧ (cacheGet (delete_item none item s).1.cache cp = none)
    ∧ ((delete_item none item s).1.total_size =
        (((delete_item none item s).1.file_list).map (fun f => f.size)).sum)
    ∧ (∀ fsys tnow, scan_current_directory fsys tnow (delete_item none item s).1 =
        scanFresh fsys tnow cp
          { (delete_item none item s).1 with scanning := true, file_list := [] }) := by
  have hres : delete_item none item s =
      ({ s with cache := cacheRemove s.cache cp,
                file_list := s.file_list.filter (fun f => decide (f.path ≠ item.path)),
                filtered_list := searchFilter s.search_query
                  (s.file_list.filter (fun f => decide (f.path ≠ item.path))),
                total_size := ((s.file_list.filter
                  (fun f => decide (f.path ≠ item.path))).map (fun f => f.size)).sum },
       .ok ()) := by
    unfold delete_item
    rw [hcp]
    simp [update_search]
  refine ⟨by rw [hres], by rw [hres], ?_, ?_, ?_, by rw [hres], ?_⟩
  · rw [hres]
    intro hmem
    rcases List.mem_filter.mp hmem with ⟨-, hdec⟩
    exact (of_decide_eq_true hdec) rfl
  · rw [hres]
    intro f hmem
    exact of_decide_eq_true (List.mem_filter.mp hmem).2
  · rw [hres]
    exact cacheGet_remove_self s.cache cp
  · intro fsys tnow
    rw [hres]
    unfold scan_current_directory
    dsimp only
    rw [hcp]
    dsimp only
    rw [cacheGet_remove_self]

/-- C7: the sort permutes the entry list, places every directory before
every file, orders each tier (entries with equal `is_dir`) by descending
size when `sort_by_size` is set and by ascending lower-cased name
otherwise, and is stable: a pair the comparator reports equal keeps its
original relative order. -/
theorem C7_sort (s : DiskAnalyzer) :
    List.Perm (sort_files s).file_list s.file_list
    ∧ (sort_files s).file_list.Pairwise
        (fun a b => a.is_dir = false → b.is_dir = false)
    ∧ (sort_files s).file_list.Pairwise
        (fun a b => a.is_dir = b.is_dir → tierKeyLe s.sort_by_size a b)
    ∧ (∀ a b, sortCmp s.sort_by_size a b = .eq →
        List.Sublist [a, b] s.file_list →
        List.Sublist [a, b] (sort_files s).file_list) := by
  have hsorted := sortByCmp_sorted s.sort_by_size s.file_list
  refine ⟨sortByCmp_perm _ _, ?_, ?_, ?_⟩
  · refine List.Pairwise.imp ?_ hsorted
    intro a b hle ha
    rcases (sortCmp_isLE_iff _ a b).mp hle with ⟨haT, _⟩ | ⟨heq, _⟩
    · rw [ha] at haT
      exact absurd haT (by simp)
    · exact heq ▸ ha
  · refine List.Pairwise.imp ?_ hsorted
    intro a b hle heq
    rcases (sortCmp_isLE_iff _ a b).mp hle with ⟨haT, hbF⟩ | ⟨_, hkey⟩
    · rw [haT, hbF] at heq
      exact absurd heq (by simp)
    · exact hkey
  · intro a b hcmp hsub
    exact sortByCmp_stable (by rw [hcmp]; rfl) hsub

theorem mem_listingToFiles_size (p : FsPath) (sh : Bool) (m : Nat)
    (entries : List (String × Option FsNode)) (f : FileInfo)
    (h : f ∈ listingToFiles p sh false m entries) : m ≤ f.size := by
  rcases List.mem_filterMap.mp h with ⟨⟨name, mn⟩, -, he⟩
  rcases mn with _ | n
  · exact absurd he (by simp [scanEntry])
  · simp only [scanEntry] at he
    split at he
    · exact absurd he (by simp)
    · split at he
      · exact absurd he (by simp)
      · rename_i hcond
        injection he with hfe
        subst hfe
        simp only [Bool.not_false, Bool.true_and, decide_eq_true_eq] at hcond
        exact Nat.le_of_not_lt hcond

theorem listingToFiles_showAll (p : FsPath) (sh : Bool) (m m' : Nat)
    (entries : List (String × Option FsNode)) :
    listingToFiles p sh true m entries = listingToFiles p sh true m' entries := by
  unfold listingToFiles
  induction entries with
  | nil => rfl
  | cons e rest ih =>
    rw [List.filterMap_cons, List.filterMap_cons, ih]
    rcases e with ⟨name, _ | n⟩
    · rfl
    · simp [scanEntry]

theorem scan_fresh_file_list (fs : FsPath → FsNode) (now : Nat) (s : DiskAnalyzer)
    (p : FsPath) (entries : List (String × Option FsNode))
    (hp : s.current_path = some p)
    (hmiss : ∀ ce, cacheGet s.cache p = some ce → 300 ≤ now - ce.timestamp)
    (hfs : fs p = .dirOk entries) :
    (scan_current_directory fs now s).file_list =
      sortByCmp (sortCmp s.sort_by_size)
        (listingToFiles p s.show_hidden s.show_all s.min_size_filter entries) := by
  rw [scan_fresh_eq fs now s p entries hp hmiss hfs]

/-- C8 (amended): on a scan that performs a fresh listing (cache miss on
a listable directory), `show_all = false` guarantees every returned
entry has size at least `min_size_filter`, and `show_all = true` never
excludes an entry on account of its size — the result is independent of
the threshold; the default threshold is 102400 bytes.  (A cache hit can
return entries filtered under the configuration active when cached.) -/
theorem C8_size_filter (fs : FsPath → FsNode) (now : Nat) (s : DiskAnalyzer)
    (p : FsPath) (entries : List (String × Option FsNode))
    (hp : s.current_path = some p)
    (hmiss : ∀ ce, cacheGet s.cache p = some ce → 300 ≤ now - ce.timestamp)
    (hfs : fs p = .dirOk entries) :
    (s.show_all = false →
      ∀ f ∈ (scan_current_directory fs now s).file_list, s.min_size_filter ≤ f.size)
    ∧ (s.show_all = true → ∀ m,
        (scan_current_directory fs now s).file_list =
          sortByCmp (sortCmp s.sort_by_size) (listingToFiles p s.show_hidden true m entries))
    ∧ (∀ t, (DiskAnalyzer.defaultState t).min_size_filter = 102400) := by
  have hscan := scan_fresh_file_list fs now s p entries hp hmiss hfs
  refine ⟨?_, ?_, fun t => rfl⟩
  · intro hsa f hf
    rw [hscan, hsa] at hf
    exact mem_listingToFiles_size p s.show_hidden s.min_size_filter entries f
      (List.mem_mergeSort.mp hf)
  · intro hsa m
    rw [hscan, hsa, listingToFiles_showAll p s.show_hidden s.min_size_filter m entries]

/-- C2 (amended): scanning a directory that cannot be listed (and misses
the cache) yields an empty entry list and empty filtered list as a soft
failure — `scan_current_directory` is total, returns no error value, and
ends with `scanning` false — leaves the cache untouched, and keeps the
previous `total_size` rather than resetting it to zero. -/
theorem C2_listing_error (fs : FsPath → FsNode) (now : Nat) (s : DiskAnalyzer)
    (p : FsPath)
    (hp : s.current_path = some p)
    (hmiss : ∀ ce, cacheGet s.cache p = some ce → 300 ≤ now - ce.timestamp)
    (hfs : ∀ entries, fs p ≠ .dirOk entries) :
    (scan_current_directory fs now s).file_list = []
    ∧ (scan_current_directory fs now s).filtered_list = []
    ∧ (scan_current_directory fs now s).total_size = s.total_size
    ∧ (scan_current_directory fs now s).cache = s.cache
    ∧ (scan_current_directory fs now s).scanning = false := by
  rw [scan_unlistable_eq fs now s p hp hmiss hfs]
  exact ⟨rfl, rfl, rfl, rfl, rfl⟩

/-- C1 (amended): a cache entry younger than 300 seconds is a hit: the
scan does not consult the filesystem (its result is the same for every
filesystem), returns a list holding exactly the cached entries re-sorted
under the current sort configuration — unchanged whenever the cached
list is already sorted under it — with the cached total unchanged and
the cache untouched; an entry aged 300 seconds or more is a miss: a
fresh listing is performed and, when the directory is listable, its
result overwrites the cache binding with timestamp `now`. -/
theorem C1_cache_ttl (fs fs' : FsPath → FsNode) (now : Nat) (s : DiskAnalyzer)
    (p : FsPath) (ce : CacheEntry)
    (hp : s.current_path = some p) (hce : cacheGet s.cache p = some ce) :
    (now - ce.timestamp < 300 →
        scan_current_directory fs now s = scan_current_directory fs' now s
      ∧ (scan_current_directory fs now s).file_list =
          sortByCmp (sortCmp s.sort_by_size) ce.file_list
      ∧ List.Perm (scan_current_directory fs now s).file_list ce.file_list
      ∧ (ce.file_list.Pairwise (fun a b => (sortCmp s.sort_by_size a b).isLE = true) →
          (scan_current_directory fs now s).file_list = ce.file_list)
      ∧ (scan_current_directory fs now s).total_size = ce.total_size
      ∧ (scan_current_directory fs now s).cache = s.cache)
    ∧ (300 ≤ now - ce.timestamp → ∀ entries, fs p = .dirOk entries →
        cacheGet (scan_current_directory fs now s).cache p =
          some ⟨sortByCmp (sortCmp s.sort_by_size)
                  (listingToFiles p s.show_hidden s.show_all s.min_size_filter entries),
                ((sortByCmp (sortCmp s.sort_by_size)
                    (listingToFiles p s.show_hidden s.show_all s.min_size_filter entries)).map
                  (fun f => f.size)).sum,
                now⟩) := by
  constructor
  · intro ht
    have h1 := scan_hit_eq fs now s p ce hp hce ht
    have h2 := scan_hit_eq fs' now s p ce hp hce ht
    refine ⟨h1.trans h2.symm, by rw [h1], ?_, ?_, by rw [h1], by rw [h1]⟩
    · rw [h1]
      exact sortByCmp_perm _ _
    · intro hsorted
      rw [h1]
      exact sortByCmp_of_sorted hsorted
  · intro ht entries hfs
    have hmiss : ∀ ce', cacheGet s.cache p = some ce' → 300 ≤ now - ce'.timestamp := by
      intro ce' hce'
      rw [hce] at hce'
      cases hce'
      exact ht
    rw [scan_fresh_eq fs now s p entries hp hmiss hfs]
    exact cacheGet_insert_self _ _ _

/-! ### Concrete sample data for witnesses and counterexamples -/

def rootPathW : FsPath := ⟨true, ["data"]⟩
def subPathW : FsPath := ⟨true, ["data", "photos"]⟩
def dirEntW : FileInfo := ⟨subPathW, 500000, true, "photos"⟩
def fileEntW : FileInfo := ⟨⟨true, ["data", "readme.txt"]⟩, 50, false, "readme.txt"⟩
def fileEnt2W : FileInfo := ⟨⟨true, ["data", "b.txt"]⟩, 50, false, "b.txt"⟩
def bigFileW : FileInfo := ⟨⟨true, ["data", "big.bin"]⟩, 500000, false, "big.bin"⟩

def baseW : DiskAnalyzer where
  root_path := some rootPathW
  current_path := some rootPathW
  file_list := [dirEntW, fileEntW]
  filtered_list := [dirEntW, fileEntW]
  scanning := false
  search_query := ""
  delete_confirmation := none
  total_size := 500050
  show_details := false
  min_size_filter := MIN_SIZE_FILTER
  show_all := true
  cache := []
  auto_refresh := false
  last_refresh := 0
  sort_by_size := true
  show_hidden := false

/-- A filesystem on which every listing fails. -/
def unlistW : FsPath → FsNode := fun _ => .dirErr

def ceW : CacheEntry := ⟨[dirEntW, fileEntW], 500050, 10⟩
def stateW1 : DiskAnalyzer := { baseW with cache := [(rootPathW, ceW)] }
def stateW2 : DiskAnalyzer := { baseW with total_size := 7 }
def stateW7 : DiskAnalyzer := { baseW with file_list := [fileEntW, fileEnt2W, dirEntW] }
def listW8 : List (String × Option FsNode) :=
  [("photos", some (.dirOk [("p1", some (.file 500000))])), ("readme.txt", some (.file 50))]
def fsW8 : FsPath → FsNode := fun _ => .dirOk listW8
def stateW8 : DiskAnalyzer := { baseW with show_all := false }
def stateW10 : DiskAnalyzer := { baseW with root_path := none, current_path := some subPathW }

def ceX1 : CacheEntry := ⟨[fileEntW, bigFileW], 500050, 0⟩
def stateX1 : DiskAnalyzer := { baseW with cache := [(rootPathW, ceX1)] }
def ceX8 : CacheEntry := ⟨[fileEntW], 50, 0⟩
def stateX8 : DiskAnalyzer := { baseW with show_all := false, cache := [(rootPathW, ceX8)] }

/-- Counterexample to C1 as frozen: the cache entry for the current path
is 0 seconds old (well under the TTL), yet the scan does not return the
cached entries unchanged — the hit is re-sorted under the current sort
configuration, which reverses this cached list. -/
theorem C1_counterexample :
    cacheGet stateX1.cache rootPathW = some ceX1
    ∧ (0 : Nat) - ceX1.timestamp < 300
    ∧ (scan_current_directory unlistW 0 stateX1).file_list ≠ ceX1.file_list := by
  have hget : cacheGet stateX1.cache rootPathW = some ceX1 := by decide
  refine ⟨hget, by decide, ?_⟩
  rw [scan_hit_eq unlistW 0 stateX1 rootPathW ceX1 rfl hget (by decide)]
  have hsort : sortByCmp (sortCmp stateX1.sort_by_size) ceX1.file_list =
      [bigFileW, fileEntW] := by
    rw [show stateX1.sort_by_size = true from rfl]
    show List.mergeSort [fileEntW, bigFileW] (fun a b => (sortCmp true a b).isLE) = _
    rw [mergeSort_pair, if_neg (by decide)]
  show sortByCmp (sortCmp stateX1.sort_by_size) ceX1.file_list ≠ ceX1.file_list
  rw [hsort]
  decide

theorem C1_cache_ttl_witness :
    stateW1.current_path = some rootPathW
    ∧ cacheGet stateW1.cache rootPathW = some ceW
    ∧ (20 : Nat) - ceW.timestamp < 300
    ∧ (scan_current_directory unlistW 20 stateW1).total_size = ceW.total_size :=
  have hget : cacheGet stateW1.cache rootPathW = some ceW := by decide
  ⟨rfl, hget, by decide,
    ((C1_cache_ttl unlistW unlistW 20 stateW1 rootPathW ceW rfl hget).1
      (by decide)).2.2.2.2.1⟩

/-- Counterexample to C2 as frozen: scanning an unreadable directory
yields an empty entry list, but the total size is not reset to zero — it
keeps its previous value, here 7. -/
theorem C2_counterexample :
    (scan_current_directory unlistW 5 stateW2).file_list = []
    ∧ (scan_current_directory unlistW 5 stateW2).total_size ≠ 0 := by
  have h := scan_unlistable_eq unlistW 5 stateW2 rootPathW rfl
    (fun _ hce => nomatch hce) (fun _ hes => nomatch hes)
  constructor
  · rw [h]
  · rw [h]
    decide

theorem C2_listing_error_witness :
    stateW2.current_path = some rootPathW
    ∧ (scan_current_directory unlistW 5 stateW2).file_list = []
    ∧ (scan_current_directory unlistW 5 stateW2).total_size = 7 :=
  have h := C2_listing_error unlistW 5 stateW2 rootPathW rfl
    (fun _ hce => nomatch hce) (fun _ hes => nomatch hes)
  ⟨rfl, h.1, h.2.2.1.trans rfl⟩

theorem C4_go_up_boundary_witness :
    baseW.root_path = some rootPathW
    ∧ baseW.current_path = some rootPathW
    ∧ go_up unlistW 0 baseW = baseW :=
  ⟨rfl, rfl, (C4_go_up_boundary unlistW 0 baseW rootPathW rootPathW rfl rfl).2.2.2 rfl⟩

theorem C5_delete_success_witness :
    stateW1.current_path = some rootPathW
    ∧ (delete_item none fileEntW stateW1).2 = .ok ()
    ∧ fileEntW ∉ (delete_item none fileEntW stateW1).1.file_list
    ∧ cacheGet (delete_item none fileEntW stateW1).1.cache rootPathW = none :=
  have h := C5_delete_success fileEntW stateW1 rootPathW rfl
  ⟨rfl, h.1, h.2.2.1, h.2.2.2.2.1⟩

theorem C6_delete_failure_witness :
    (delete_item (some "denied") fileEntW baseW).1 = baseW
    ∧ (delete_item (some "denied") fileEntW baseW).2 =
        .error ("Error deleting file: " ++ "denied") :=
  have h := C6_delete_failure "denied" fileEntW baseW
  ⟨h.1, h.2.2.1 rfl⟩

theorem C7_sort_witness :
    List.Perm (sort_files stateW7).file_list stateW7.file_list
    ∧ List.Sublist [fileEntW, fileEnt2W] (sort_files stateW7).file_list :=
  have h := C7_sort stateW7
  ⟨h.1, h.2.2.2 fileEntW fileEnt2W (by decide)
    (List.sublist_append_left [fileEntW, fileEnt2W] [dirEntW])⟩

/-- Counterexample to C8 as frozen: a scan served from the cache can
return an entry far below the active threshold even though `show_all` is
false — the cached listing was produced under an earlier filter
configuration. -/
theorem C8_counterexample :
    stateX8.show_all = false
    ∧ fileEntW ∈ (scan_current_directory unlistW 0 stateX8).file_list
    ∧ fileEntW.size < stateX8.min_size_filter := by
  have hget : cacheGet stateX8.cache rootPathW = some ceX8 := by decide
  refine ⟨rfl, ?_, by decide⟩
  rw [scan_hit_eq unlistW 0 stateX8 rootPathW ceX8 rfl hget (by decide)]
  show fileEntW ∈ sortByCmp (sortCmp stateX8.sort_by_size) ceX8.file_list
  rw [sortByCmp]
  simp only [List.mem_mergeSort]
  decide

theorem C8_size_filter_witness :
    stateW8.show_all = false
    ∧ (∀ f ∈ (scan_current_directory fsW8 0 stateW8).file_list,
        stateW8.min_size_filter ≤ f.size) :=
  ⟨rfl, (C8_size_filter fsW8 0 stateW8 rootPathW listW8 rfl
    (fun _ hce => nomatch hce) rfl).1 rfl⟩

theorem C9_search_witness :
    baseW.search_query = "" ∧ (update_search baseW).filtered_list = baseW.file_list :=
  ⟨rfl, (C9_search baseW).2.2.2.2 rfl⟩

theorem C10_go_up_no_root_witness :
    stateW10.root_path = none
    ∧ stateW10.current_path = some subPathW
    ∧ subPathW.parent = some rootPathW
    ∧ (go_up unlistW 0 stateW10).current_path = some rootPathW :=
  ⟨rfl, rfl, by decide,
    (C10_go_up_no_root unlistW 0 stateW10 subPathW rootPathW rfl rfl (by decide)).2⟩

end DiskAnalyzerModel
